import Mathlib

/-!
Shallow embedding of the component indexing & retrieval engine of
`src/services/EnhancedPineconeService.ts` (the `EnhancedPineconeService`
class and its `LocalJSONStorage` fallback store), together with the parts
of the data model it consumes (`CppComponent` from `src/types/index.ts`).

JavaScript semantics conventions used throughout:
* strings are `String` (lists of characters); `toLowerCase` is mapped
  `Char.toLower` (all inputs of interest are ASCII);
* `a.includes(b)` is substring containment;
* string truthiness (`if (s)`) is non-emptiness;
* numbers are embedded as `Int` / `Rat` (the source only manipulates
  integral counts and small decimal weights, all exactly representable);
* `Math.round` is round-half-up, `⌊x + 1/2⌋`;
* `Array.prototype.sort` is a stable sort (guaranteed by the ECMAScript
  specification), modelled by `List.insertionSort` with a non-strict
  comparison, which places an element after all earlier-inserted elements
  of equal key;
* `[...new Set(xs)]` is deduplication keeping first occurrences.
-/

/-- Embeds `s.toLowerCase()` as a character list. -/
def charsLower (s : String) : List Char := s.data.map Char.toLower

/-- JavaScript `hay.includes(needle)` on character lists. -/
def listContainsSub (needle : List Char) : List Char → Bool
  | [] => needle.isEmpty
  | c :: t => needle.isPrefixOf (c :: t) || listContainsSub needle t

/-- JavaScript `hay.toLowerCase().includes(needle.toLowerCase())`. -/
def includesCI (hay needle : String) : Bool :=
  listContainsSub (charsLower needle) (charsLower hay)

/-- Case-sensitive JavaScript `hay.includes(needle)`. -/
def includesCS (hay needle : String) : Bool :=
  listContainsSub needle.data hay.data

/-- A case-insensitive alternation regex `/(k1|k2|…)/i.test(content)`:
true iff some keyword occurs in the content, case-insensitively. -/
def testAnyKeyword (content : String) (keys : List String) : Bool :=
  keys.any (fun k => includesCI content k)

/-- JavaScript truthiness of a string value. -/
def jsTruthyStr (s : String) : Bool := !s.isEmpty

/-- JavaScript `Math.round` (round half toward positive infinity). -/
def jsRound (x : Rat) : Int := ⌊x + 1/2⌋

/-- Iteration of `new Set(xs)`: elements already seen are skipped. -/
def jsSetDedupAux (seen : List String) : List String → List String
  | [] => []
  | x :: xs =>
    if seen.contains x then jsSetDedupAux seen xs
    else x :: jsSetDedupAux (x :: seen) xs

/-- Embeds `[...new Set(xs)]`: deduplicate keeping the first occurrence of each
element, in order. -/
def jsSetDedup (l : List String) : List String := jsSetDedupAux [] l

/-- Embeds `xs.filter(Boolean)` over an array whose entries are strings or
`undefined` (`none`): drops `undefined` and empty strings. -/
def jsFilterBoolean (l : List (Option String)) : List String :=
  (l.filterMap id).filter (fun s => !s.isEmpty)

/-- JavaScript template interpolation of a possibly-`undefined` string
(`undefined` prints as "undefined"). -/
def jsTemplateOpt : Option String → String
  | none => "undefined"
  | some s => s

/-- JavaScript `x || d` for a possibly-`undefined` string: the default is
used when the value is `undefined` or empty. -/
def jsOrDefault (v : Option String) (d : String) : String :=
  match v with
  | none => d
  | some s => if s.isEmpty then d else s

/-- Stable sort by descending key: the model of
`array.sort((a, b) => key(b) - key(a))` under the ECMAScript stable-sort
guarantee. An element is placed after every earlier element whose key is
greater than or equal to its own. -/
def sortByScoreDesc {α γ : Type} [LinearOrder γ] (key : α → γ) (l : List α) : List α :=
  l.insertionSort (fun a b => key b ≤ key a)

/-! ### The `CppComponent` input record (src/types/index.ts) -/

/-- The `type` field of a `CppComponent`:
the strings function, class, struct, namespace. -/
inductive ComponentKind : Type
  | function
  | cls
  | strct
  | nspace
deriving DecidableEq, Repr

/-- The string value carried by the `type` field. -/
def kindStr : ComponentKind → String
  | .function => "function"
  | .cls => "class"
  | .strct => "struct"
  | .nspace => "namespace"

/-- Embeds `CppComponent` (the fields the indexing engine reads; `domain` and
`serviceCandidate` are optional in the TypeScript interface). -/
structure CppComponent : Type where
  id : String
  name : String
  type : ComponentKind
  content : String
  filePath : String
  lineNumber : Nat
  dependencies : List String
  domain : Option String
  serviceCandidate : Option String
  complexity : Int
deriving DecidableEq, Repr

/-! ### UI pattern / framework detection -/

/-- The ordered pattern → keyword-regex table of `detectUIPattern`; each
regex is a case-insensitive alternation of literal keywords. -/
def uiPatternTable : List (String × List String) :=
  [ ("form", ["QDialog", "QForm", "QInputDialog", "QMessageBox", "form", "input", "button"]),
    ("table", ["QTable", "QTableView", "QTableWidget", "table", "grid", "list"]),
    ("modal", ["QDialog", "QMessageBox", "modal", "popup", "dialog"]),
    ("navigation", ["QMenu", "QMenuBar", "QToolBar", "QTabWidget", "menu", "navigation"]),
    ("chart", ["QChart", "QChartView", "QGraph", "chart", "graph", "plot"]) ]

/-- Embeds `detectUIPattern`: first pattern whose regex matches the content wins;
no match returns the string custom (which is a truthy value). -/
def detectUIPattern (content : String) : String :=
  match uiPatternTable.find? (fun p => testAnyKeyword content p.2) with
  | some p => p.1
  | none => "custom"

/-- Embeds `detectUIFramework`: fixed marker regexes, `undefined` when none match. -/
def detectUIFramework (content : String) : Option String :=
  if testAnyKeyword content ["QWidget", "QApplication", "Qt::"] then some "qt"
  else if testAnyKeyword content ["wxWidgets", "wx::"] then some "wxwidgets"
  else if testAnyKeyword content ["gtk", "Gtk::"] then some "gtk"
  else if testAnyKeyword content ["Win32", "Windows::"] then some "win32"
  else if testAnyKeyword content ["NSView", "NSWindow", "Cocoa"] then some "cocoa"
  else none

/-! ### Migration planning heuristics -/

/-- Embeds `calculateMigrationPriority`. -/
def calculateMigrationPriority (c : CppComponent) : String :=
  if c.complexity > 7 || c.dependencies.length > 10 then "high"
  else if c.complexity > 4 || c.dependencies.length > 5 then "medium"
  else "low"

/-- Embeds `calculateMigrationComplexity`: note the UI-pattern test is the
JavaScript truthiness of the string returned by `detectUIPattern`. -/
def calculateMigrationComplexity (c : CppComponent) : String :=
  if c.complexity > 8 || jsTruthyStr (detectUIPattern c.content) then "complex"
  else if c.complexity > 5 || c.dependencies.length > 7 then "moderate"
  else "simple"

/-- Embeds `estimateMigrationEffort`:
`complexity * 2 + dependencies.length * 0.5`, multiplied by `1.5` when the
(truthy) UI-pattern test passes, then `Math.round`ed. -/
def estimateMigrationEffort (c : CppComponent) : Int :=
  let effort : Rat := (c.complexity : Rat) * 2 + (c.dependencies.length : Rat) * (1/2)
  let effort := if jsTruthyStr (detectUIPattern c.content) then effort * (3/2) else effort
  jsRound effort

/-! ### Regex scanners

The metadata enricher runs a handful of global regexes over the raw
content (`pattern.exec` loops and `content.match(gpattern)`).  Each global
regex is replayed by a left-to-right scanner: at every position it tries
to match the pattern; on success it records the match and resumes after
it (the `lastIndex` advance), otherwise it moves one character forward.
Every pattern below matches at least one character, so the resume point
always advances. -/

/-- JavaScript `\w` (`[A-Za-z0-9_]`). -/
def isWordChar (c : Char) : Bool :=
  ('a' ≤ c && c ≤ 'z') || ('A' ≤ c && c ≤ 'Z') || ('0' ≤ c && c ≤ '9') || c = '_'

/-- JavaScript `\s` restricted to its ASCII part. -/
def isSpaceChar (c : Char) : Bool :=
  c = ' ' || c = '\t' || c = '\n' || c = '\r' || c = '\x0b' || c = '\x0c'

/-- Generic global-regex scanner: `step` attempts a match at the head of
the remaining input and returns the captured string together with the
total matched length; on success the scan resumes after the match, else
one character further.  Structured with an explicit fuel (the remaining
length) so that it is structurally recursive; every pattern used with it
consumes at least one character per match (the surrounding `max · 1`
makes this unconditional), so the fuel never runs out. -/
def scanMatchesAux (step : List Char → Option (String × Nat)) : Nat → List Char → List String
  | 0, _ => []
  | _, [] => []
  | fuel + 1, c :: cs =>
    match step (c :: cs) with
    | some (s, n) => s :: scanMatchesAux step fuel ((c :: cs).drop (max n 1))
    | none => scanMatchesAux step fuel cs

/-- Run a global regex over the whole input. -/
def scanMatches (step : List Char → Option (String × Nat)) (l : List Char) : List String :=
  scanMatchesAux step l.length l

/-- One match attempt of `/(class|struct)\s+(\w+)/`: keyword, one or more
whitespace characters, then the captured identifier. -/
def matchEntityAt (l : List Char) : Option (String × Nat) :=
  let tryKw : List Char → Option (String × Nat) := fun kw =>
    if kw.isPrefixOf l then
      let after := l.drop kw.length
      let ws := after.takeWhile isSpaceChar
      if ws.isEmpty then none
      else
        let rest := after.drop ws.length
        let w := rest.takeWhile isWordChar
        if w.isEmpty then none
        else some (String.mk w, kw.length + ws.length + w.length)
    else none
  match tryKw "class".data with
  | some r => some r
  | none => tryKw "struct".data

/-- Embeds `extractDataEntities`: all identifiers captured by the global regex
`/(class|struct)\s+(\w+)/g`. -/
def extractDataEntities (content : String) : List String :=
  scanMatches matchEntityAt content.data

/-- One match attempt of `/(https?:\/\/[^\s]+)/`: the whole URL is the
match. -/
def matchUrlAt (l : List Char) : Option (String × Nat) :=
  let tryScheme : List Char → Option (String × Nat) := fun scheme =>
    if scheme.isPrefixOf l then
      let body := (l.drop scheme.length).takeWhile (fun c => !isSpaceChar c)
      if body.isEmpty then none
      else some (String.mk (scheme ++ body), scheme.length + body.length)
    else none
  match tryScheme "https://".data with
  | some r => some r
  | none => tryScheme "http://".data

/-- One match attempt of a case-insensitive alternation of literal words
(`/(w1|w2|…)/i`): the first alternative that matches wins, and the
matched substring keeps the original casing. -/
def matchAltCIAt (alts : List String) (l : List Char) : Option (String × Nat) :=
  match alts.find? (fun a => (a.data.map Char.toLower).isPrefixOf (l.map Char.toLower)) with
  | some a => some (String.mk (l.take a.length), a.length)
  | none => none

/-- Embeds `extractExternalAPIs`: concatenation of the matches of the three
global patterns `/(https?:\/\/[^\s]+)/g`, `/(curl|http|https|api)/gi` and
`/(REST|SOAP|GraphQL)/gi`, deduplicated with a `Set`. -/
def extractExternalAPIs (content : String) : List String :=
  let urls := scanMatches matchUrlAt content.data
  let protos := scanMatches (matchAltCIAt ["curl", "http", "https", "api"]) content.data
  let styles := scanMatches (matchAltCIAt ["REST", "SOAP", "GraphQL"]) content.data
  jsSetDedup (urls ++ protos ++ styles)

/-- One match attempt of `/#include\s*<([^>]+)>/` (or the quoted variant):
captures the bracketed path. -/
def matchIncludeAt (openC closeC : Char) (l : List Char) : Option (String × Nat) :=
  if "#include".data.isPrefixOf l then
    let after := l.drop "#include".length
    let ws := after.takeWhile isSpaceChar
    let rest := after.drop ws.length
    match rest with
    | [] => none
    | c :: body =>
      if c = openC then
        let inner := body.takeWhile (fun d => d ≠ closeC)
        if inner.isEmpty then none
        else
          match body.drop inner.length with
          | d :: _ =>
            if d = closeC then
              some (String.mk inner, "#include".length + ws.length + 1 + inner.length + 1)
            else none
          | [] => none
      else none
  else none

/-- Embeds `extractImports`: captures of `/#include\s*<([^>]+)>/g`. -/
def extractImports (content : String) : List String :=
  scanMatches (matchIncludeAt '<' '>') content.data

/-- Embeds `extractIncludes`: captures of `/#include\s*"([^"]+)"/g`. -/
def extractIncludes (content : String) : List String :=
  scanMatches (matchIncludeAt '\"' '\"') content.data

/-! ### Code metrics, business context, language -/

/-- The `metrics` field of the enriched metadata. -/
structure CodeMetrics : Type where
  linesOfCode : Nat
  commentRatio : Rat
deriving DecidableEq, Repr

/-- JavaScript `s.split(sep)` for a single separator character: always
returns at least one (possibly empty) piece. -/
def splitOnChar (sep : Char) : List Char → List (List Char)
  | [] => [[]]
  | c :: cs =>
    let r := splitOnChar sep cs
    if c = sep then [] :: r
    else
      match r with
      | h :: t => (c :: h) :: t
      | [] => [[c]]

/-- JavaScript `line.trim()` on a character list. -/
def trimChars (l : List Char) : List Char :=
  ((l.dropWhile isSpaceChar).reverse.dropWhile isSpaceChar).reverse

/-- Embeds `calculateCodeMetrics`: non-blank non-`//` lines vs. comment lines
over a `'\n'` split (which always yields at least one line). -/
def calculateCodeMetrics (content : String) : CodeMetrics :=
  let lines := splitOnChar '\n' content.data
  let codeLines := lines.filter
    (fun line => !(trimChars line).isEmpty && !("//".data.isPrefixOf (trimChars line)))
  let commentLines := lines.filter
    (fun line => "//".data.isPrefixOf (trimChars line) || listContainsSub "/*".data line)
  { linesOfCode := codeLines.length,
    commentRatio := (commentLines.length : Rat) / (lines.length : Rat) }

/-- The ordered business-domain keyword table of `extractBusinessContext`. -/
def businessKeywordTable : List (String × List String) :=
  [ ("banking", ["account", "transaction", "balance", "withdraw", "deposit", "loan"]),
    ("ecommerce", ["product", "order", "cart", "payment", "inventory", "shipping"]),
    ("iot", ["sensor", "device", "monitor", "control", "data", "stream"]),
    ("healthcare", ["patient", "medical", "diagnosis", "treatment", "health"]) ]

/-- The ordered business-function keyword table of
`extractBusinessFunction`. -/
def functionKeywordTable : List (String × List String) :=
  [ ("authentication", ["login", "auth", "password", "user", "session"]),
    ("authorization", ["role", "permission", "access", "admin"]),
    ("dataProcessing", ["process", "transform", "convert", "calculate"]),
    ("reporting", ["report", "analytics", "statistics", "metrics"]),
    ("communication", ["api", "http", "socket", "message", "network"]) ]

/-- Embeds `extractBusinessFunction`: first function pattern matching the
component name or content; default "unknown". -/
def extractBusinessFunction (c : CppComponent) : String :=
  match functionKeywordTable.find?
      (fun p => testAnyKeyword c.name p.2 || testAnyKeyword c.content p.2) with
  | some p => p.1
  | none => "unknown"

/-- The business-context slice of the enriched metadata. -/
structure BusinessContext : Type where
  businessDomain : String
  businessFunction : String
  dataEntities : List String
  externalApis : List String
deriving DecidableEq, Repr

/-- Embeds `extractBusinessContext`: first business domain whose keyword regex
matches the name or the content triggers the extraction passes; no match
yields the "general"/"unknown"/empty defaults. -/
def extractBusinessContext (c : CppComponent) : BusinessContext :=
  match businessKeywordTable.find?
      (fun p => testAnyKeyword c.name p.2 || testAnyKeyword c.content p.2) with
  | some p =>
    { businessDomain := p.1,
      businessFunction := extractBusinessFunction c,
      dataEntities := extractDataEntities c.content,
      externalApis := extractExternalAPIs c.content }
  | none =>
    { businessDomain := "general",
      businessFunction := "unknown",
      dataEntities := [],
      externalApis := [] }

/-- Node `path.extname`, lower-cased by the caller: the extension of the
basename of the path starting at its last dot, empty when the basename has no
dot or starts with its only dot. -/
def extnameLower (p : String) : String :=
  let base := (splitOnChar '/' p.data).getLastD []
  let tailLen := (base.reverse.takeWhile (fun c => c ≠ '.')).length
  if tailLen = base.length then ""
  else
    let dotIdx := base.length - tailLen - 1
    if dotIdx = 0 then ""
    else String.mk ((base.drop dotIdx).map Char.toLower)

/-- Embeds `detectLanguage`: switch on the lower-cased file extension, default
cpp. -/
def detectLanguage (filePath : String) : String :=
  let ext := extnameLower filePath
  if ext = ".cpp" then "cpp"
  else if ext = ".h" then "h"
  else if ext = ".hpp" then "hpp"
  else if ext = ".cc" then "cc"
  else if ext = ".cxx" then "cxx"
  else "cpp"

/-- The `uiProperties` field. -/
structure UIProperties : Type where
  hasValidation : Bool
  hasState : Bool
  hasEvents : Bool
  isResponsive : Bool
deriving DecidableEq, Repr

/-- Embeds `analyzeUIProperties`. -/
def analyzeUIProperties (content : String) : UIProperties :=
  { hasValidation := testAnyKeyword content ["validate", "validation", "check", "verify"],
    hasState := testAnyKeyword content ["state", "status", "enabled", "disabled", "visible"],
    hasEvents := testAnyKeyword content ["signal", "slot", "event", "callback", "onClick", "onChange"],
    isResponsive := testAnyKeyword content ["resize", "layout", "responsive", "adaptive"] }

/-! ### Keywords, tags, labels, semantic context -/

/-- Embeds `generateSearchKeywords`: name, kind, domain, service, dependencies,
extracted data entities and extracted API references; falsy entries
dropped, then deduplicated with a `Set`. -/
def generateSearchKeywords (c : CppComponent) : List String :=
  let keywords : List (Option String) :=
    [some c.name, some (kindStr c.type), c.domain, c.serviceCandidate]
      ++ c.dependencies.map some
      ++ (extractDataEntities c.content).map some
      ++ (extractExternalAPIs c.content).map some
  jsSetDedup (jsFilterBoolean keywords)

/-- Embeds `generateTags`: kind, domain, service and language, plus
the ui-component tag under the (truthy) UI-pattern test; falsy entries
dropped, then deduplicated. -/
def generateTags (c : CppComponent) : List String :=
  let tags : List (Option String) :=
    [some (kindStr c.type), c.domain, c.serviceCandidate, some (detectLanguage c.filePath)]
  let tags := if jsTruthyStr (detectUIPattern c.content) then tags ++ [some "ui-component"] else tags
  jsSetDedup (jsFilterBoolean tags)

/-- Embeds `generateLabels`. -/
def generateLabels (c : CppComponent) : List String :=
  (if c.complexity > 7 then ["high-complexity"] else [])
    ++ (if c.complexity < 3 then ["low-complexity"] else [])
    ++ (if c.dependencies.length > 5 then ["high-coupling"] else [])
    ++ (if c.dependencies.length = 0 then ["independent"] else [])

/-- Embeds `generateSemanticContext`: a template string (optional fields print
as "undefined" when absent, per JavaScript interpolation). -/
def generateSemanticContext (c : CppComponent) : String :=
  c.name ++ " is a " ++ kindStr c.type ++ " in the " ++ jsTemplateOpt c.domain
    ++ " domain, part of " ++ jsTemplateOpt c.serviceCandidate ++ " service. "
    ++ extractBusinessFunction c ++ " functionality."

/-! ### The enriched metadata record -/

/-- Embeds `EnhancedMetadata`, the enriched record of the engine (the
`IndexRecord` metadata of the spec). -/
structure EnhancedMetadata : Type where
  name : String
  type : String
  filePath : String
  lineNumber : Nat
  content : String
  contentHash : String
  contentLength : Nat
  language : String
  domain : String
  serviceCandidate : String
  complexity : Int
  dependencies : List String
  dependents : List String
  imports : List String
  includes : List String
  uiPattern : String
  uiFramework : Option String
  uiProperties : UIProperties
  metrics : CodeMetrics
  businessDomain : String
  businessFunction : String
  dataEntities : List String
  externalApis : List String
  migrationPriority : String
  migrationComplexity : String
  estimatedEffort : Int
  createdAt : String
  updatedAt : String
  version : String
  tags : List String
  labels : List String
  searchKeywords : List String
  semanticContext : String
deriving DecidableEq, Repr

/-- Embeds `generateEnhancedMetadata`.  The SHA-256 content fingerprint comes
from the Node crypto library and the timestamps from `new Date()`; both
externals enter the model as parameters: `sha256Hex` stands for the hash
function and `now` for the ISO timestamp observed during the run. -/
def generateEnhancedMetadata (sha256Hex : String → String) (now : String)
    (c : CppComponent) : EnhancedMetadata :=
  { name := c.name,
    type := kindStr c.type,
    filePath := c.filePath,
    lineNumber := c.lineNumber,
    content := String.mk (c.content.data.take 2000),
    contentHash := sha256Hex c.content,
    contentLength := c.content.length,
    language := detectLanguage c.filePath,
    domain := jsOrDefault c.domain "unknown",
    serviceCandidate := jsOrDefault c.serviceCandidate "unknown",
    complexity := c.complexity,
    dependencies := c.dependencies,
    dependents := [],
    imports := extractImports c.content,
    includes := extractIncludes c.content,
    uiPattern := detectUIPattern c.content,
    uiFramework := detectUIFramework c.content,
    uiProperties := analyzeUIProperties c.content,
    metrics := calculateCodeMetrics c.content,
    businessDomain := (extractBusinessContext c).businessDomain,
    businessFunction := (extractBusinessContext c).businessFunction,
    dataEntities := (extractBusinessContext c).dataEntities,
    externalApis := (extractBusinessContext c).externalApis,
    migrationPriority := calculateMigrationPriority c,
    migrationComplexity := calculateMigrationComplexity c,
    estimatedEffort := estimateMigrationEffort c,
    createdAt := now,
    updatedAt := now,
    version := "1.0.0",
    tags := generateTags c,
    labels := generateLabels c,
    searchKeywords := generateSearchKeywords c,
    semanticContext := generateSemanticContext c }

/-- A stored record (`EnhancedEmbeddingRecord`): id, embedding vector and
enriched metadata.  (The `relationships` and `quality` side-channels are
never read by any retrieval, scoring or persistence operation and are
omitted from the embedding.) -/
structure EnhancedEmbeddingRecord : Type where
  id : String
  vector : List Rat
  metadata : EnhancedMetadata
deriving DecidableEq, Repr

/-! ### Scoring engine -/

/-- The kind contribution of `calculateSimilarityScore`. -/
def kindMatchTerm (m1 m2 : EnhancedMetadata) : Rat :=
  if m1.type = m2.type then 3/10 else 0

/-- The domain contribution of `calculateSimilarityScore`. -/
def domainMatchTerm (m1 m2 : EnhancedMetadata) : Rat :=
  if m1.domain = m2.domain then 1/5 else 0

/-- The service contribution of `calculateSimilarityScore`. -/
def serviceMatchTerm (m1 m2 : EnhancedMetadata) : Rat :=
  if m1.serviceCandidate = m2.serviceCandidate then 1/5 else 0

/-- The keyword-overlap contribution of `calculateSimilarityScore`:
`(|keywords1 ∩ keywords2| / max(|keywords1|, |keywords2|)) * 0.3`, the
intersection taken as the filter of the first list by membership in the
second. -/
def keywordOverlapTerm (m1 m2 : EnhancedMetadata) : Rat :=
  let common := m1.searchKeywords.filter (fun k => m2.searchKeywords.contains k)
  ((common.length : Rat) / ((max m1.searchKeywords.length m2.searchKeywords.length : Nat) : Rat)) * (3/10)

/-- Embeds `calculateSimilarityScore`. -/
def calculateSimilarityScore (r1 r2 : EnhancedEmbeddingRecord) : Rat :=
  kindMatchTerm r1.metadata r2.metadata
    + domainMatchTerm r1.metadata r2.metadata
    + serviceMatchTerm r1.metadata r2.metadata
    + keywordOverlapTerm r1.metadata r2.metadata

/-- Embeds `LocalJSONStorage.calculateRelevanceScore`. -/
def calculateRelevanceScore (r : EnhancedEmbeddingRecord) (query : String) : Int :=
  (if includesCI r.metadata.name query then 10 else 0)
    + (if includesCI r.metadata.content query then 5 else 0)
    + (if r.metadata.searchKeywords.any (fun k => includesCI k query) then 3 else 0)
    + (if r.metadata.tags.any (fun t => includesCI t query) then 2 else 0)

/-! ### Fallback store (`LocalJSONStorage`) -/

/-- The optional filter object accepted by `LocalJSONStorage.search`. -/
structure SearchFilters : Type where
  type : Option String
  domain : Option String
  serviceCandidate : Option String

/-- One filter clause `if (filters.f && metadata.f !== filters.f) return
false`: passes when the wanted value is absent or falsy, or equal. -/
def filterOk (want : Option String) (actual : String) : Bool :=
  match want with
  | none => true
  | some w => if w.isEmpty then true else actual == w

/-- The membership predicate of `LocalJSONStorage.search`: a basic text
match on name, content or derived keywords (tags are NOT consulted
here, only in the relevance scorer). -/
def matchesQueryPred (r : EnhancedEmbeddingRecord) (query : String) : Bool :=
  includesCI r.metadata.name query
    || includesCI r.metadata.content query
    || r.metadata.searchKeywords.any (fun k => includesCI k query)

/-- The filter clauses of `LocalJSONStorage.search`. -/
def matchesFilters (f : Option SearchFilters) (r : EnhancedEmbeddingRecord) : Bool :=
  match f with
  | none => true
  | some fl =>
    filterOk fl.type r.metadata.type
      && filterOk fl.domain r.metadata.domain
      && filterOk fl.serviceCandidate r.metadata.serviceCandidate

/-- Embeds `LocalJSONStorage.search` over a loaded record list: filter by the
membership predicate and the optional filters, then stable-sort by
descending relevance score. -/
def storageSearch (records : List EnhancedEmbeddingRecord) (query : String)
    (f : Option SearchFilters) : List EnhancedEmbeddingRecord :=
  sortByScoreDesc (fun r => calculateRelevanceScore r query)
    (records.filter (fun r => matchesQueryPred r query && matchesFilters f r))

/-- Persistence outcomes of the underlying `fs-extra` calls. -/
inductive FsError : Type
  | fileAbsent
  | diskError (msg : String)
deriving DecidableEq, Repr

/-- Embeds `LocalJSONStorage.load`: `readJson` wrapped in a `try` whose `catch`
returns the empty collection — any read failure (missing file or disk
error alike) yields `[]`.  The parameter is the outcome of the underlying
`fs.readJson` call. -/
def LocalJSONStorage.load (readResult : Except FsError (List EnhancedEmbeddingRecord)) :
    Except FsError (List EnhancedEmbeddingRecord) :=
  match readResult with
  | .ok records => .ok records
  | .error _ => .ok []

/-- Embeds `LocalJSONStorage.save`: no `try`/`catch` — the outcome of the
underlying `fs.writeJson` call (success or disk error) propagates to the
caller unchanged. -/
def LocalJSONStorage.save (writeResult : Except FsError Unit) : Except FsError Unit :=
  writeResult

/-! ### Dual-mode retrieval operations -/

/-- Embeds `fallbackSearch`: fallback-store text search truncated to `topK`. -/
def fallbackSearch (records : List EnhancedEmbeddingRecord) (query : String)
    (topK : Nat) (f : Option SearchFilters) : List EnhancedEmbeddingRecord :=
  (storageSearch records query f).take topK

/-- Embeds `fallbackSimilarSearch`: looks up the target record (not-found
failure when absent), scores every other record with
`calculateSimilarityScore`, sorts descending and truncates to `topK`.
Each result carries its score (the spread `{...record, score}`). -/
def fallbackSimilarSearch (records : List EnhancedEmbeddingRecord)
    (componentId : String) (topK : Nat) :
    Except String (List (EnhancedEmbeddingRecord × Rat)) :=
  match records.find? (fun r => r.id == componentId) with
  | none => .error ("Component " ++ componentId ++ " not found in fallback storage")
  | some target =>
    .ok ((sortByScoreDesc Prod.snd
      ((records.filter (fun r => r.id != componentId)).map
        (fun r => (r, calculateSimilarityScore target r)))).take topK)

/-- Embeds `fallbackServiceSearch`: service-equality filter over the fallback
store, no cap. -/
def fallbackServiceSearch (records : List EnhancedEmbeddingRecord)
    (serviceName : String) : List EnhancedEmbeddingRecord :=
  records.filter (fun r => r.metadata.serviceCandidate == serviceName)

/-- A record held by the remote Pinecone index. -/
structure PineconeRecord : Type where
  id : String
  values : List Rat
  metadata : EnhancedMetadata
deriving DecidableEq, Repr

/-- Modelled from the spec: the external Vector Index Service.  Its
stored records plus its ranking function (`sim v w` is the similarity
score the service assigns to a stored vector `w` for a query vector `v`);
the service itself is not part of this repository. -/
structure PineconeIndex : Type where
  records : List PineconeRecord
  sim : List Rat → List Rat → Rat

/-- A query match as returned by the service. -/
structure PineconeMatch : Type where
  id : String
  vector : List Rat
  metadata : EnhancedMetadata
  score : Rat
deriving DecidableEq, Repr

/-- Modelled from the spec: `index.query({vector, topK, filter})` returns
the `topK` stored records passing the metadata filter, ranked by
descending similarity to the query vector
(`query(vector, topK, filter?) -> ranked<{id, vector?, metadata, score}>`). -/
def pineconeQuery (idx : PineconeIndex) (v : List Rat) (topK : Nat)
    (pred : PineconeRecord → Bool) : List PineconeMatch :=
  ((sortByScoreDesc (fun r => idx.sim v r.values) (idx.records.filter pred)).take topK).map
    (fun r => { id := r.id, vector := r.values, metadata := r.metadata, score := idx.sim v r.values })

/-- Embeds `pineconeSimilarSearch`: fetch the stored vector of `componentId`
(not-found failure when absent), then query `topK + 1` nearest neighbors
with a filter excluding `componentId` itself; all returned matches are
passed through. -/
def pineconeSimilarSearch (idx : PineconeIndex) (componentId : String)
    (topK : Nat) : Except String (List PineconeMatch) :=
  match idx.records.find? (fun r => r.id == componentId) with
  | none => .error ("Component " ++ componentId ++ " not found in index")
  | some comp =>
    .ok (pineconeQuery idx comp.values (topK + 1) (fun r => r.id != componentId))

/-- Embeds `pineconeServiceSearch`: a metadata-only probe with a zero vector of
dimension 1536, `topK` 1000 and a service-equality filter. -/
def pineconeServiceSearch (idx : PineconeIndex) (serviceName : String) : List PineconeMatch :=
  pineconeQuery idx (List.replicate 1536 0) 1000
    (fun r => r.metadata.serviceCandidate == serviceName)

/-- Erase the wall-clock timestamps of an enriched record (the only
fields of `generateEnhancedMetadata` that depend on `new Date()`). -/
def stripTimestamps (m : EnhancedMetadata) : EnhancedMetadata :=
  { m with createdAt := "", updatedAt := "" }

/-! ### Concrete fixtures used by witnesses and counterexamples -/

/-- The scenario component from the spec: complexity 9, twelve dependencies, no
UI-pattern keyword in the content. -/
def cWithdraw : CppComponent :=
  { id := "comp-withdraw", name := "withdraw", type := .function, content := "",
    filePath := "bank.cpp", lineNumber := 10,
    dependencies := ["d1", "d2", "d3", "d4", "d5", "d6", "d7", "d8", "d9", "d10", "d11", "d12"],
    domain := some "banking", serviceCandidate := some "account-service", complexity := 9 }

/-- The same component with a UI-pattern keyword in its content. -/
def cWithdrawUI : CppComponent := { cWithdraw with content := "QDialog" }

/-- A small component: complexity 3, two dependencies, no UI-pattern
keyword. -/
def cPlain : CppComponent :=
  { id := "comp-plain", name := "helper", type := .function, content := "",
    filePath := "util.cpp", lineNumber := 1, dependencies := ["a", "b"],
    domain := none, serviceCandidate := none, complexity := 3 }

/-- A neutral enriched-metadata value for building stored-record
fixtures. -/
def mdBase : EnhancedMetadata :=
  { name := "", type := "function", filePath := "", lineNumber := 0, content := "",
    contentHash := "", contentLength := 0, language := "cpp", domain := "", serviceCandidate := "",
    complexity := 0, dependencies := [], dependents := [], imports := [], includes := [],
    uiPattern := "custom", uiFramework := none,
    uiProperties := { hasValidation := false, hasState := false, hasEvents := false, isResponsive := false },
    metrics := { linesOfCode := 0, commentRatio := 0 },
    businessDomain := "general", businessFunction := "unknown", dataEntities := [], externalApis := [],
    migrationPriority := "low", migrationComplexity := "simple", estimatedEffort := 0,
    createdAt := "", updatedAt := "", version := "1.0.0", tags := [], labels := [],
    searchKeywords := [], semanticContext := "" }

/-- Stored record with keywords `["alpha", "beta"]`. -/
def recKw1 : EnhancedEmbeddingRecord :=
  { id := "r1", vector := [], metadata := { mdBase with name := "alpha", searchKeywords := ["alpha", "beta"] } }

/-- Stored record with keywords `["beta"]`. -/
def recKw2 : EnhancedEmbeddingRecord :=
  { id := "r2", vector := [], metadata := { mdBase with name := "beta", searchKeywords := ["beta"] } }

/-- Fallback-store records `a` and `b`. -/
def recA6 : EnhancedEmbeddingRecord := { id := "a", vector := [], metadata := mdBase }

/-- Second fallback-store record. -/
def recB6 : EnhancedEmbeddingRecord := { id := "b", vector := [], metadata := mdBase }

/-- A two-record fallback store. -/
def recsTwo : List EnhancedEmbeddingRecord := [recA6, recB6]

/-- The fallback similar-search result for `recsTwo`, target `"a"`. -/
def fbSimilarPair : List (EnhancedEmbeddingRecord × Rat) :=
  [(recB6, calculateSimilarityScore recA6 recB6)]

/-- A three-record remote index (constant ranking function). -/
def idxThree : PineconeIndex :=
  { records := [ { id := "a", values := [], metadata := mdBase },
                 { id := "b", values := [], metadata := mdBase },
                 { id := "c", values := [], metadata := mdBase } ],
    sim := fun _ _ => 0 }

/-- A stored index record of service `"svc"`. -/
def recSvcX : PineconeRecord :=
  { id := "x", values := [], metadata := { mdBase with serviceCandidate := "svc" } }

/-- A second, distinguishable stored record of service `"svc"`. -/
def recSvcY : PineconeRecord :=
  { id := "y", values := [], metadata := { mdBase with serviceCandidate := "svc" } }

/-- A remote index holding 1001 records of the same service. -/
def idxBig : PineconeIndex :=
  { records := List.replicate 1000 recSvcX ++ [recSvcY], sim := fun _ _ => 0 }

/-- A two-record remote index of service `"svc"`. -/
def idxSvcSmall : PineconeIndex :=
  { records := [recSvcX, recSvcY], sim := fun _ _ => 0 }

/-- Record whose only case-insensitive `"auth"` match is its name
(relevance 10). -/
def recAuthName : EnhancedEmbeddingRecord :=
  { id := "ra", vector := [],
    metadata := { mdBase with name := "auth", content := "x", searchKeywords := ["k"], tags := [] } }

/-- Record with no `"auth"` in its name but matching content, a keyword
and a tag (relevance 5 + 3 + 2 = 10). -/
def recAuthOther : EnhancedEmbeddingRecord :=
  { id := "rb", vector := [],
    metadata := { mdBase with
                  name := "b", content := "auth code", searchKeywords := ["xauthy"], tags := ["zauth"] } }

/-- Record whose only case-insensitive `"auth"` match is a tag. -/
def recAuthTagOnly : EnhancedEmbeddingRecord :=
  { id := "rc", vector := [],
    metadata := { mdBase with name := "c", content := "y", searchKeywords := ["m"], tags := ["auth"] } }

/-! ### General lemmas about the helpers -/

theorem sortByScoreDesc_perm {α γ : Type} [LinearOrder γ] (key : α → γ) (l : List α) :
    (sortByScoreDesc key l).Perm l :=
  List.perm_insertionSort _ l

theorem mem_sortByScoreDesc {α γ : Type} [LinearOrder γ] (key : α → γ) {l : List α} {x : α} :
    x ∈ sortByScoreDesc key l ↔ x ∈ l :=
  List.mem_insertionSort _

theorem length_sortByScoreDesc {α γ : Type} [LinearOrder γ] (key : α → γ) (l : List α) :
    (sortByScoreDesc key l).length = l.length :=
  List.length_insertionSort _ l

theorem sorted_sortByScoreDesc {α γ : Type} [LinearOrder γ] (key : α → γ) (l : List α) :
    (sortByScoreDesc key l).Pairwise (fun a b => key b ≤ key a) := by
  haveI : IsTotal α (fun a b => key b ≤ key a) := ⟨fun a b => le_total (key b) (key a)⟩
  haveI : IsTrans α (fun a b => key b ≤ key a) := ⟨fun _ _ _ hab hbc => le_trans hbc hab⟩
  exact List.sorted_insertionSort _ l

theorem pair_sublist_sortByScoreDesc {α γ : Type} [LinearOrder γ] {key : α → γ} {a b : α}
    {l : List α} (hab : key b ≤ key a) (h : [a, b].Sublist l) :
    [a, b].Sublist (sortByScoreDesc key l) :=
  List.pair_sublist_insertionSort hab h

theorem sortByScoreDesc_const {α γ : Type} [LinearOrder γ] (c : γ) (l : List α) :
    sortByScoreDesc (fun _ => c) l = l := by
  induction l with
  | nil => rfl
  | cons x xs ih =>
    show List.orderedInsert _ x (sortByScoreDesc (fun _ => c) xs) = x :: xs
    rw [ih]
    cases xs with
    | nil => rfl
    | cons y ys => simp [List.orderedInsert]

theorem jsSetDedup_ne_nil {l : List String} (h : l ≠ []) : jsSetDedup l ≠ [] := by
  cases l with
  | nil => exact absurd rfl h
  | cons x xs => simp [jsSetDedup, jsSetDedupAux]

theorem mem_storageSearch {records : List EnhancedEmbeddingRecord} {q : String}
    {f : Option SearchFilters} {r : EnhancedEmbeddingRecord}
    (h : r ∈ storageSearch records q f) :
    matchesQueryPred r q = true ∧ matchesFilters f r = true := by
  unfold storageSearch at h
  have h2 := (mem_sortByScoreDesc _).mp h
  have h3 := List.of_mem_filter h2
  simpa [Bool.and_eq_true] using h3

theorem generateSemanticContext_ne_empty (c : CppComponent) :
    generateSemanticContext c ≠ "" := by
  intro h
  have h2 := congrArg String.length h
  simp only [generateSemanticContext, String.length_append] at h2
  have h6 : (" is a " : String).length = 6 := rfl
  have h0 : ("" : String).length = 0 := rfl
  omega

/-! ### The claims -/

/-- C1: the spec claims the effort estimate is
`round(complexity × 2 + dependencyCount × 0.5)`, with the ×1.5 multiplier
applied exactly when a UI pattern keyword occurs in the content — in
particular 24 for the complexity-9, 12-dependency component with no UI
keyword.  The code instead applies the multiplier unconditionally:
`detectUIPattern` falls back to the truthy string custom, so
`if (this.detectUIPattern(...))` always passes, and the no-UI-keyword
component gets 36, not the specified 24. -/
theorem claim1_effort_scenario_eval :
    estimateMigrationEffort cWithdraw = 36 ∧
    detectUIPattern cWithdraw.content = "custom" ∧
    estimateMigrationEffort cWithdrawUI = 36 ∧
    jsRound ((9 : Rat) * 2 + (12 : Rat) * (1/2)) = 24 := by
  refine ⟨?_, by decide, ?_, by norm_num [jsRound]⟩
  · have hui : jsTruthyStr (detectUIPattern cWithdraw.content) = true := by decide
    have hd : ((cWithdraw.dependencies.length : Nat) : Rat) = 12 := by norm_num [cWithdraw]
    have hc : ((cWithdraw.complexity : Int) : Rat) = 9 := by norm_num [cWithdraw]
    simp only [estimateMigrationEffort, hui, if_true, hd, hc]
    norm_num [jsRound]
  · have hui : jsTruthyStr (detectUIPattern cWithdrawUI.content) = true := by decide
    have hd : ((cWithdrawUI.dependencies.length : Nat) : Rat) = 12 := by
      norm_num [cWithdrawUI, cWithdraw]
    have hc : ((cWithdrawUI.complexity : Int) : Rat) = 9 := by norm_num [cWithdrawUI, cWithdraw]
    simp only [estimateMigrationEffort, hui, if_true, hd, hc]
    norm_num [jsRound]

/-- C2: the spec buckets a component with complexity ≤ 5, at most 7
dependencies and no UI-pattern keyword as "simple".  Because
`detectUIPattern` always returns a truthy string (custom when nothing
matches), so the first branch of `calculateMigrationComplexity` always fires: the
code returns "complex" for every component, including this one. -/
theorem claim2_bucket_scenario_eval :
    calculateMigrationComplexity cPlain = "complex" ∧
    cPlain.complexity ≤ 5 ∧ cPlain.dependencies.length ≤ 7 ∧
    detectUIPattern cPlain.content = "custom" := by decide

/-- C3 counterexample: two runs of enrichment on the same component at
different wall-clock instants produce different records (the `createdAt`
timestamp differs), so enrichment is not deterministic in the claimed
sense. -/
theorem claim3_counterexample :
    generateEnhancedMetadata (fun _ => "") "2024-01-01T00:00:00.000Z" cPlain ≠
      generateEnhancedMetadata (fun _ => "") "2024-01-01T00:00:00.001Z" cPlain :=
  fun h => absurd (congrArg EnhancedMetadata.createdAt h) (by decide)

/-- C3 (amended): enrichment is total (a total function of the component,
the content-hash function and the observed timestamp) and deterministic
in every derived field except the `createdAt`/`updatedAt` timestamps:
two runs at arbitrary instants agree after erasing the timestamps, and
hence runs at the same instant agree on everything. -/
theorem claim3_enrichment_deterministic_mod_timestamps
    (sha256Hex : String → String) (now1 now2 : String) (c : CppComponent) :
    stripTimestamps (generateEnhancedMetadata sha256Hex now1 c) =
      stripTimestamps (generateEnhancedMetadata sha256Hex now2 c) := rfl

/-- C4: every enriched record has a non-empty keyword set (the component
kind string always survives the falsy-filter and deduplication) and a
non-empty semantic-context sentence. -/
theorem claim4_nonempty_search_aids
    (sha256Hex : String → String) (now : String) (c : CppComponent) :
    (generateEnhancedMetadata sha256Hex now c).searchKeywords ≠ [] ∧
    (generateEnhancedMetadata sha256Hex now c).semanticContext ≠ "" := by
  constructor
  · show generateSearchKeywords c ≠ []
    unfold generateSearchKeywords jsFilterBoolean
    apply jsSetDedup_ne_nil
    apply List.ne_nil_of_mem (a := kindStr c.type)
    apply List.mem_filter.mpr
    refine ⟨List.mem_filterMap.mpr ⟨some (kindStr c.type), by simp, rfl⟩, ?_⟩
    cases c.type <;> decide
  · show generateSemanticContext c ≠ ""
    exact generateSemanticContext_ne_empty c

/-- C9 counterexample: a disk error during `load()` is not surfaced — the
catch-all returns the empty collection instead of propagating the error. -/
theorem claim9_counterexample :
    LocalJSONStorage.load (Except.error (FsError.diskError "EIO")) = Except.ok [] ∧
    LocalJSONStorage.load (Except.error (FsError.diskError "EIO")) ≠
      Except.error (FsError.diskError "EIO") := by
  exact ⟨rfl, fun h => Except.noConfusion h⟩

/-- C9 (amended): `load()` never fails — it returns the records on a
successful read and the empty collection on any read failure, missing
file and disk error alike; only `save()` surfaces its failures, which it
propagates unchanged. -/
theorem claim9_load_swallows_save_propagates :
    (∀ e, LocalJSONStorage.load (Except.error e) = Except.ok []) ∧
    (∀ records, LocalJSONStorage.load (Except.ok records) = Except.ok records) ∧
    (∀ w, LocalJSONStorage.save w = w) :=
  ⟨fun _ => rfl, fun _ => rfl, fun _ => rfl⟩

/-- C10: every record returned by the fallback search matches the query
case-insensitively in its name, content or derived keywords — the
membership predicate never consults tags, so a tag-only match is never
returned even though the relevance scorer awards +2 for it. -/
theorem claim10_no_tag_only_results (records : List EnhancedEmbeddingRecord)
    (query : String) (topK : Nat) (f : Option SearchFilters)
    (r : EnhancedEmbeddingRecord) (h : r ∈ fallbackSearch records query topK f) :
    includesCI r.metadata.name query = true ∨
    includesCI r.metadata.content query = true ∨
    r.metadata.searchKeywords.any (fun k => includesCI k query) = true := by
  have h1 : r ∈ storageSearch records query f := List.mem_of_mem_take h
  have h2 := (mem_storageSearch h1).1
  rw [matchesQueryPred] at h2
  simp only [Bool.or_eq_true] at h2
  tauto

/-- C10 witness: a store holding a tag-only-matching record and a
name-matching record; the returned name-matching record indeed matches in
one of the three membership fields. -/
theorem claim10_witness :
    includesCI recAuthName.metadata.name "auth" = true ∨
    includesCI recAuthName.metadata.content "auth" = true ∨
    recAuthName.metadata.searchKeywords.any (fun k => includesCI k "auth") = true :=
  claim10_no_tag_only_results [recAuthTagOnly, recAuthName] "auth" 2 none recAuthName (by decide)

/-- C5: for records satisfying the non-empty-keyword invariant (so that
the divisor `max(|keywords A|, |keywords B|)` is nonzero, as it is for
every enriched record), the pairwise similarity score lies in [0, 1], its
kind/domain/service contributions are symmetric, and the total equals
0.30·[kind equal] + 0.20·[domain equal] + 0.20·[service equal] +
0.30·(|keyword intersection| / max of the two keyword-set sizes). -/
theorem claim5_similarity_bounded_symmetric (A B : EnhancedEmbeddingRecord)
    (hA : A.metadata.searchKeywords ≠ []) (_hB : B.metadata.searchKeywords ≠ []) :
    (0 ≤ calculateSimilarityScore A B ∧ calculateSimilarityScore A B ≤ 1) ∧
    kindMatchTerm A.metadata B.metadata = kindMatchTerm B.metadata A.metadata ∧
    domainMatchTerm A.metadata B.metadata = domainMatchTerm B.metadata A.metadata ∧
    serviceMatchTerm A.metadata B.metadata = serviceMatchTerm B.metadata A.metadata ∧
    calculateSimilarityScore A B =
      (3/10) * (if A.metadata.type = B.metadata.type then 1 else 0)
        + (1/5) * (if A.metadata.domain = B.metadata.domain then 1 else 0)
        + (1/5) * (if A.metadata.serviceCandidate = B.metadata.serviceCandidate then 1 else 0)
        + (3/10) * (((A.metadata.searchKeywords.filter
              (fun k => B.metadata.searchKeywords.contains k)).length : Rat)
            / ((max A.metadata.searchKeywords.length B.metadata.searchKeywords.length : Nat) : Rat)) := by
  have hmaxNat : 0 < max A.metadata.searchKeywords.length B.metadata.searchKeywords.length :=
    lt_of_lt_of_le (List.length_pos.mpr hA) (le_max_left _ _)
  have hmax : (0 : Rat) <
      ((max A.metadata.searchKeywords.length B.metadata.searchKeywords.length : Nat) : Rat) := by
    exact_mod_cast hmaxNat
  have hcom : (((A.metadata.searchKeywords.filter
        (fun k => B.metadata.searchKeywords.contains k)).length : Nat) : Rat) ≤
      ((max A.metadata.searchKeywords.length B.metadata.searchKeywords.length : Nat) : Rat) := by
    exact_mod_cast le_trans (List.length_filter_le _ _) (le_max_left _ _)
  have hq0 : (0 : Rat) ≤ (((A.metadata.searchKeywords.filter
        (fun k => B.metadata.searchKeywords.contains k)).length : Nat) : Rat)
      / ((max A.metadata.searchKeywords.length B.metadata.searchKeywords.length : Nat) : Rat) :=
    div_nonneg (by positivity) hmax.le
  have hq1 : (((A.metadata.searchKeywords.filter
        (fun k => B.metadata.searchKeywords.contains k)).length : Nat) : Rat)
      / ((max A.metadata.searchKeywords.length B.metadata.searchKeywords.length : Nat) : Rat) ≤ 1 :=
    (div_le_one hmax).mpr hcom
  refine ⟨⟨?_, ?_⟩, ?_, ?_, ?_, ?_⟩
  · unfold calculateSimilarityScore kindMatchTerm domainMatchTerm serviceMatchTerm keywordOverlapTerm
    split_ifs <;> linarith
  · unfold calculateSimilarityScore kindMatchTerm domainMatchTerm serviceMatchTerm keywordOverlapTerm
    split_ifs <;> linarith
  · unfold kindMatchTerm
    by_cases h : A.metadata.type = B.metadata.type
    · rw [if_pos h, if_pos h.symm]
    · rw [if_neg h, if_neg (fun hh => h hh.symm)]
  · unfold domainMatchTerm
    by_cases h : A.metadata.domain = B.metadata.domain
    · rw [if_pos h, if_pos h.symm]
    · rw [if_neg h, if_neg (fun hh => h hh.symm)]
  · unfold serviceMatchTerm
    by_cases h : A.metadata.serviceCandidate = B.metadata.serviceCandidate
    · rw [if_pos h, if_pos h.symm]
    · rw [if_neg h, if_neg (fun hh => h hh.symm)]
  · unfold calculateSimilarityScore kindMatchTerm domainMatchTerm serviceMatchTerm keywordOverlapTerm
    split_ifs <;> ring

/-- C5 witness: the bounds instantiated at two concrete records with
non-empty keyword sets. -/
theorem claim5_witness :
    0 ≤ calculateSimilarityScore recKw1 recKw2 ∧ calculateSimilarityScore recKw1 recKw2 ≤ 1 :=
  (claim5_similarity_bounded_symmetric recKw1 recKw2 (by decide) (by decide)).1

/-- C6 (amended): in both modes `findSimilar` never returns the target id
itself; the fallback result has at most `topK` entries, but the primary
result can have up to `topK + 1` entries, because the code requests
`topK + 1` neighbors with the target already excluded by the filter and
never truncates the answer. -/
theorem claim6_similar_excludes_target :
    (∀ (records : List EnhancedEmbeddingRecord) (cid : String) (topK : Nat)
        (l : List (EnhancedEmbeddingRecord × Rat)),
      fallbackSimilarSearch records cid topK = Except.ok l →
        (∀ p ∈ l, p.1.id ≠ cid) ∧ l.length ≤ topK) ∧
    (∀ (idx : PineconeIndex) (cid : String) (topK : Nat) (l : List PineconeMatch),
      pineconeSimilarSearch idx cid topK = Except.ok l →
        (∀ m ∈ l, m.id ≠ cid) ∧ l.length ≤ topK + 1) := by
  constructor
  · intro records cid topK l h
    unfold fallbackSimilarSearch at h
    cases hfind : records.find? (fun r => r.id == cid) with
    | none => rw [hfind] at h; exact Except.noConfusion h
    | some target =>
      rw [hfind] at h
      injection h with hl
      subst hl
      constructor
      · intro p hp
        have h1 := List.mem_of_mem_take hp
        have h2 := (mem_sortByScoreDesc _).mp h1
        obtain ⟨r, hr, rfl⟩ := List.mem_map.mp h2
        have h3 := List.of_mem_filter hr
        simpa [bne_iff_ne] using h3
      · exact le_trans (le_of_eq (List.length_take _ _)) (min_le_left _ _)
  · intro idx cid topK l h
    unfold pineconeSimilarSearch at h
    cases hfind : idx.records.find? (fun r => r.id == cid) with
    | none => rw [hfind] at h; exact Except.noConfusion h
    | some comp =>
      rw [hfind] at h
      injection h with hl
      subst hl
      unfold pineconeQuery
      constructor
      · intro m hm
        obtain ⟨r, hr, rfl⟩ := List.mem_map.mp hm
        have h1 := List.mem_of_mem_take hr
        have h2 := (mem_sortByScoreDesc _).mp h1
        have h3 := List.of_mem_filter h2
        simpa [bne_iff_ne] using h3
      · rw [List.length_map]
        exact le_trans (le_of_eq (List.length_take _ _)) (min_le_left _ _)

/-- C6 counterexample: primary-mode `findSimilar("a", topK := 1)` over a
three-record index returns two matches — more than `topK`. -/
theorem claim6_counterexample :
    (pineconeSimilarSearch idxThree "a" 1).map List.length = Except.ok 2 := rfl

/-- C6 witness: the fallback half instantiated at a concrete two-record
store. -/
theorem claim6_witness :
    (∀ p ∈ fbSimilarPair, p.1.id ≠ "a") ∧ fbSimilarPair.length ≤ 5 :=
  claim6_similar_excludes_target.1 recsTwo "a" 5 fbSimilarPair rfl

/-- C7 (amended): fallback-mode `listByService(S)` returns exactly the
stored records whose service field equals S.  Primary mode returns only
matching stored records, and all of them whenever at most 1000 records
match — but its query is capped at `topK = 1000`, so beyond 1000 matching
records some are omitted (see the counterexample). -/
theorem claim7_service_search :
    (∀ (records : List EnhancedEmbeddingRecord) (s : String) (r : EnhancedEmbeddingRecord),
      r ∈ fallbackServiceSearch records s ↔ r ∈ records ∧ r.metadata.serviceCandidate = s) ∧
    (∀ (idx : PineconeIndex) (s : String) (m : PineconeMatch),
      m ∈ pineconeServiceSearch idx s →
        m.metadata.serviceCandidate = s ∧
        ∃ r ∈ idx.records, r.id = m.id ∧ r.metadata = m.metadata) ∧
    (∀ (idx : PineconeIndex) (s : String),
      (idx.records.filter (fun r => r.metadata.serviceCandidate == s)).length ≤ 1000 →
        ∀ r ∈ idx.records, r.metadata.serviceCandidate = s →
          ∃ m ∈ pineconeServiceSearch idx s, m.id = r.id ∧ m.metadata = r.metadata) := by
  refine ⟨?_, ?_, ?_⟩
  · intro records s r
    simp [fallbackServiceSearch, List.mem_filter]
  · intro idx s m hm
    unfold pineconeServiceSearch pineconeQuery at hm
    obtain ⟨r, hr, rfl⟩ := List.mem_map.mp hm
    have h1 := List.mem_of_mem_take hr
    have h2 := (mem_sortByScoreDesc _).mp h1
    have h3 := List.of_mem_filter h2
    have h4 := (List.mem_filter.mp h2).1
    exact ⟨by simpa using h3, r, h4, rfl, rfl⟩
  · intro idx s hlen r hr hs
    unfold pineconeServiceSearch pineconeQuery
    have hmemf : r ∈ idx.records.filter (fun r => r.metadata.serviceCandidate == s) :=
      List.mem_filter.mpr ⟨hr, by simp [hs]⟩
    have hsortlen :
        (sortByScoreDesc (fun r => idx.sim (List.replicate 1536 0) r.values)
          (idx.records.filter (fun r => r.metadata.serviceCandidate == s))).length ≤ 1000 := by
      rw [length_sortByScoreDesc]
      exact hlen
    rw [List.take_of_length_le hsortlen]
    have hmems := (mem_sortByScoreDesc
      (fun r => idx.sim (List.replicate 1536 0) r.values)).mpr hmemf
    exact ⟨_, List.mem_map_of_mem _ hmems, rfl, rfl⟩

/-- C7 counterexample: an index holding 1001 records of service `"svc"`;
the distinguishable record `recSvcY` matches the service but its id does
not appear among the (at most 1000) returned ids, so primary mode does
not return exactly the matching records. -/
theorem claim7_counterexample :
    recSvcY ∈ idxBig.records ∧ recSvcY.metadata.serviceCandidate = "svc" ∧
    recSvcY.id ∉ (pineconeServiceSearch idxBig "svc").map PineconeMatch.id := by
  have hrec : idxBig.records = List.replicate 1000 recSvcX ++ [recSvcY] := rfl
  refine ⟨?_, by decide, ?_⟩
  · rw [hrec]
    exact List.mem_append_right _ (List.mem_singleton_self _)
  · have hfilter : idxBig.records.filter (fun r => r.metadata.serviceCandidate == "svc") =
        idxBig.records := by
      rw [List.filter_eq_self, hrec]
      intro a ha
      rcases List.mem_append.mp ha with h | h
      · rw [(List.mem_replicate.mp h).2]
        decide
      · rw [List.mem_singleton.mp h]
        decide
    unfold pineconeServiceSearch pineconeQuery
    rw [hfilter]
    have hconst : sortByScoreDesc (fun r => idxBig.sim (List.replicate 1536 0) r.values)
        idxBig.records = idxBig.records := sortByScoreDesc_const 0 idxBig.records
    rw [hconst, hrec]
    have htake : List.take 1000 (List.replicate 1000 recSvcX ++ [recSvcY]) =
        List.replicate 1000 recSvcX :=
      List.take_left' (List.length_replicate 1000 recSvcX)
    rw [htake, List.map_map, List.map_replicate]
    intro hmem
    have := (List.mem_replicate.mp hmem).2
    exact absurd this (by decide)

/-- C7 witness: completeness instantiated at a concrete two-record index
below the cap. -/
theorem claim7_witness :
    ∃ m ∈ pineconeServiceSearch idxSvcSmall "svc",
      m.id = recSvcX.id ∧ m.metadata = recSvcX.metadata :=
  claim7_service_search.2.2 idxSvcSmall "svc" (by decide) recSvcX (by decide) (by decide)

/-- C8 (amended): the fallback relevance score is exactly
10·[name match] + 5·[content match] + 3·[keyword match] + 2·[tag match];
the fallback search result is sorted by weakly descending score and the
sort is stable (any correctly ordered pair of filtered records survives
into the output, so ties keep insertion order); and the scenario of the spec
holds whenever the total score of the name-matching record strictly exceeds
that of the other record — but not at a tie, where the
earlier-inserted record wins (see the counterexample: a record matching
content, keyword and tag also totals 10). -/
theorem claim8_relevance_and_order :
    (∀ (r : EnhancedEmbeddingRecord) (q : String),
      calculateRelevanceScore r q =
        (if includesCI r.metadata.name q then 10 else 0)
          + (if includesCI r.metadata.content q then 5 else 0)
          + (if r.metadata.searchKeywords.any (fun k => includesCI k q) then 3 else 0)
          + (if r.metadata.tags.any (fun t => includesCI t q) then 2 else 0)) ∧
    (∀ (records : List EnhancedEmbeddingRecord) (q : String) (f : Option SearchFilters),
      (storageSearch records q f).Pairwise
        (fun a b => calculateRelevanceScore b q ≤ calculateRelevanceScore a q)) ∧
    (∀ (records : List EnhancedEmbeddingRecord) (q : String) (f : Option SearchFilters)
        (a b : EnhancedEmbeddingRecord),
      calculateRelevanceScore b q ≤ calculateRelevanceScore a q →
      [a, b].Sublist (records.filter (fun r => matchesQueryPred r q && matchesFilters f r)) →
      [a, b].Sublist (storageSearch records q f)) ∧
    (∀ (A B : EnhancedEmbeddingRecord) (q : String) (k : Nat),
      includesCI A.metadata.name q = true →
      includesCI B.metadata.name q = false →
      calculateRelevanceScore B q < calculateRelevanceScore A q →
      0 < k →
      (fallbackSearch [B, A] q k none).head? = some A) := by
  refine ⟨fun r q => rfl, ?_, ?_, ?_⟩
  · intro records q f
    exact sorted_sortByScoreDesc _ _
  · intro records q f a b hab hsub
    exact pair_sublist_sortByScoreDesc hab hsub
  · intro A B q k hA hB hlt hk
    have hAq : matchesQueryPred A q = true := by
      rw [matchesQueryPred, hA]
      rfl
    have hnle : ¬ (calculateRelevanceScore A q ≤ calculateRelevanceScore B q) := not_le.mpr hlt
    unfold fallbackSearch storageSearch sortByScoreDesc
    by_cases hB2 : matchesQueryPred B q = true
    · have hfil : List.filter (fun r => matchesQueryPred r q && matchesFilters none r) [B, A] =
          [B, A] := by
        simp [List.filter, matchesFilters, hAq, hB2]
      rw [hfil]
      have hsort : List.insertionSort
          (fun a b => calculateRelevanceScore b q ≤ calculateRelevanceScore a q) [B, A] =
          [A, B] := by
        simp only [List.insertionSort, List.orderedInsert]
        rw [if_neg hnle]
      rw [hsort]
      cases k with
      | zero => exact absurd hk (by omega)
      | succ n => rfl
    · have hfil : List.filter (fun r => matchesQueryPred r q && matchesFilters none r) [B, A] =
          [A] := by
        simp [List.filter, matchesFilters, hAq, hB2]
      rw [hfil]
      cases k with
      | zero => exact absurd hk (by omega)
      | succ n => rfl

/-- C8 counterexample: the scenario of the spec fails at a score tie — the
record without `"auth"` in its name matches content, keyword and tag
(5 + 3 + 2 = 10), equals the 10 of the name-only record, was inserted first,
and is returned first by the stable sort. -/
theorem claim8_counterexample :
    fallbackSearch [recAuthOther, recAuthName] "auth" 1 none = [recAuthOther] ∧
    includesCI recAuthName.metadata.name "auth" = true ∧
    includesCI recAuthOther.metadata.name "auth" = false := by decide

/-- C8 witness: the amended scenario instantiated — the name-matching
record wins against a strictly lower-scoring tag-only record. -/
theorem claim8_witness :
    (fallbackSearch [recAuthTagOnly, recAuthName] "auth" 1 none).head? = some recAuthName :=
  claim8_relevance_and_order.2.2.2 recAuthName recAuthTagOnly "auth" 1
    (by decide) (by decide) (by decide) (by decide)
